import Mathlib

/-!
Verification development for the icos-erddap repository.

The development shallowly embeds the parts of the code relevant to the
catalog-synchronization and descriptor-generation pipeline:

* `database.py` — the SQLite tracking store, modelled as a list of rows
  (`Store`), one `DataObject` per row, with each SQL statement translated
  to a pure function (fallible statements return `Except`).
* `update_from_icos.py` — the reconciliation pass `main`, modelled as
  `mainRun`/`mainCommitted` over the 4-tuple listing built by
  `icos.get_all_data_object_ids`; the 3-name tuple unpacking of its
  first loop header aborts any nonempty run before the reconciliation
  body executes (see C2, C3, C5).
* `populate_erddap.py` — the descriptor-generation helpers: attribute
  rendering, people flattening, the extra-attribute parser, the grid
  axis computation and the per-entity block assembly of
  `_write_datasets_xml`.
* `icos.py` — the adaptive inter-query throttle of `run_query`,
  modelled over an integer timeline.
-/

/-- Json values, as stored in the `metadata` column (`json.dumps` /
`json.loads` round-trip is the identity on the values the pipeline
builds, so the column is modelled by the value itself).  Objects and
arrays are encoded first-order (`objCons` is one key/value pair before
the rest of the object) so that equality is derivable. -/
inductive Json where
  | null : Json
  | str : String → Json
  | num : Int → Json
  | objNil : Json
  | objCons : String → Json → Json → Json
  | arrNil : Json
  | arrCons : Json → Json → Json
  deriving DecidableEq

/-- Python `dict()`: what `database.get_metadata` returns when the
metadata column is NULL. -/
def emptyJson : Json := Json.objNil

/-- One row of the `data_object` table (see `_init_db` in
`database.py`): id, metadata, datasets_xml, new, updated, deleted,
deleted_time.  The `new`/`updated`/`deleted` INTEGER columns only ever
hold 0/1 and are modelled as `Bool` (`isNew` names the `new` column;
`new` is reserved-ish in several tools). -/
structure DataObject where
  id : String
  metadata : Option Json
  datasets_xml : Option String
  isNew : Bool
  updated : Bool
  deleted : Bool
  deleted_time : Option String
  deriving DecidableEq

/-- The `data_object` table, rows in insertion order. -/
abbrev Store := List DataObject

/-- Id column of the store, in row order. -/
def ids (s : Store) : List String := s.map (·.id)

/-- Error message raised by the database functions when a pid is absent. -/
def notFound (pid : String) : String := "PID " ++ pid ++ " not in database"

/-- Byte/code-point order on strings (SQLite `ORDER BY` on TEXT and
Python `sorted` both compare code points). -/
def charListLe : List Char → List Char → Bool
  | [], _ => true
  | _ :: _, [] => false
  | a :: as, b :: bs =>
    if a = b then charListLe as bs else Nat.blt a.toNat b.toNat

/-- String comparison used for the deterministic orderings. -/
def strLe (a b : String) : Bool := charListLe a.toList b.toList

/-- `database.is_in_db`: `SELECT COUNT(*) FROM data_object WHERE id = ?`
compared with 0. -/
def is_in_db (s : Store) (pid : String) : Bool := (ids s).contains pid

/-- `database.is_deleted`: read the deleted flag of the row with the
given id, `ValueError` when absent. -/
def is_deleted (s : Store) (pid : String) : Except String Bool :=
  match s.find? (fun r => r.id == pid) with
  | none => .error (notFound pid)
  | some r => .ok r.deleted

/-- Row effect of `database.undelete`:
`SET deleted = 0, deleted_time = NULL, updated = 1`. -/
def undelRec (r : DataObject) : DataObject :=
  { r with deleted := false, deleted_time := none, updated := true }

/-- `database.undelete`: update every row with the id; `ValueError` when
the rowcount is 0 (no row matched). -/
def undelete (s : Store) (pid : String) : Except String Store :=
  if is_in_db s pid then
    .ok (s.map (fun r => if r.id == pid then undelRec r else r))
  else .error (notFound pid)

/-- `database.get_active_pids`:
`SELECT id FROM data_object WHERE deleted = 0 ORDER BY id`. -/
def get_active_pids (s : Store) : List String :=
  List.insertionSort (fun a b => strLe a b = true)
    ((s.filter (fun r => !r.deleted)).map (·.id))

/-- Row inserted by `database.add_pid`:
`INSERT INTO data_object VALUES(?, NULL, NULL, 1, 0, 0, NULL)`. -/
def freshRec (pid : String) : DataObject :=
  { id := pid
    metadata := none
    datasets_xml := none
    isNew := true
    updated := false
    deleted := false
    deleted_time := none }

/-- `database.add_pid`: append a fresh row; the PRIMARY KEY constraint
rejects a duplicate id. -/
def add_pid (s : Store) (pid : String) : Except String Store :=
  if is_in_db s pid then .error ("PID " ++ pid ++ " already in database")
  else .ok (s ++ [freshRec pid])

/-- Row effect of `database.mark_deleted`:
`SET new = 0, updated = 0, deleted = 1, deleted_time = ?` with the
current time. -/
def delRec (now : String) (r : DataObject) : DataObject :=
  { r with
      isNew := false, updated := false, deleted := true,
      deleted_time := some now }

/-- `database.mark_deleted`; `now` stands for
`datetime.now().isoformat()`. -/
def mark_deleted (s : Store) (pid : String) (now : String) :
    Except String Store :=
  if is_in_db s pid then
    .ok (s.map (fun r => if r.id == pid then delRec now r else r))
  else .error (notFound pid)

/-- Metadata of a row as `database.get_metadata` reads it: `dict()` when
the column is NULL, else the parsed value. -/
def storedMeta (r : DataObject) : Json := r.metadata.getD emptyJson

/-- `database.get_metadata`: `ValueError` when the id is absent. -/
def get_metadata (s : Store) (pid : String) : Except String Json :=
  match s.find? (fun r => r.id == pid) with
  | none => .error (notFound pid)
  | some r => .ok (storedMeta r)

/-- Row effect of `database.set_metadata`:
`SET metadata = ?, updated = 1`. -/
def setMetaRec (m : Json) (r : DataObject) : DataObject :=
  { r with metadata := some m, updated := true }

/-- `database.set_metadata`: `ValueError` when the rowcount is 0. -/
def set_metadata (s : Store) (pid : String) (m : Json) :
    Except String Store :=
  if is_in_db s pid then
    .ok (s.map (fun r => if r.id == pid then setMetaRec m r else r))
  else .error (notFound pid)

/-- `database.clear_new`: `SET new = 0`, `ValueError` when absent. -/
def clear_new (s : Store) (pid : String) : Except String Store :=
  if is_in_db s pid then
    .ok (s.map (fun r => if r.id == pid then { r with isNew := false } else r))
  else .error (notFound pid)

/-- `database.get_pids_with_status`: id with the new/updated/deleted
flags of every row. -/
def get_pids_with_status (s : Store) : List (String × Bool × Bool × Bool) :=
  s.map (fun r => (r.id, r.isNew, r.updated, r.deleted))

/-- `database.write_datasets_xml`:
`SET datasets_xml = ?, updated = 0`, `ValueError` when absent. -/
def write_datasets_xml (s : Store) (pid : String) (xml : String) :
    Except String Store :=
  if is_in_db s pid then
    .ok (s.map (fun r =>
      if r.id == pid then { r with datasets_xml := some xml, updated := false }
      else r))
  else .error (notFound pid)

/-!
Reconciliation (`update_from_icos.main`), embedded faithfully.

`icos.get_all_data_object_ids` builds a list of 4-tuples
`(pid, expocode, start_time, end_time)` (icos.py line 63), but the
first loop of `main` reads `for (pid, start_date, end_date) in
datasets:` (update_from_icos.py line 27) — a three-name unpacking of a
four-element tuple, which raises `ValueError` on the first element of
any nonempty listing, before any database statement has run.  The
exception propagates out of the `with database.connect() as db:` block,
whose context manager rolls the open transaction back, and the handler
in `main` logs it and exits — the stored table is left unchanged.  Only
with an empty listing does the run get past the first loop: nothing is
added or undeleted, every active pid is marked deleted (the remote set
being empty), and `icos.get_metadata([])` yields an empty mapping, so
the metadata loop writes nothing.  The loops below are translated
clause by clause, the external portal data entering as inputs.
-/

/-- Second loop of `update_from_icos.main`: mark the newly deleted pids.
Python iterates `list(set(local) - set(remote))` in unspecified set
order; the per-pid updates touch disjoint rows, so the final store does
not depend on the order and the model fixes the filtered order. -/
def deletePids (now : String) : Store → List String → Except String Store
  | s, [] => .ok s
  | s, pid :: rest => do
    let s' ← mark_deleted s pid now
    deletePids now s' rest

/-- Third loop body of `update_from_icos.main`: compare the stored
metadata with the freshly fetched value and store it when different
(`set_metadata` raises the updated flag). -/
def refreshStep (s : Store) (entry : String × Json) : Except String Store := do
  let existing ← get_metadata s entry.1
  if existing = entry.2 then .ok s else set_metadata s entry.1 entry.2

/-- Third loop of `update_from_icos.main` over `metadata.keys()` (one
key per remote pid, in listing order). -/
def refreshMetadata : Store → List (String × Json) → Except String Store
  | s, [] => .ok s
  | s, entry :: rest => do
    let s' ← refreshStep s entry
    refreshMetadata s' rest

/-- One element of the listing returned by
`icos.get_all_data_object_ids` (icos.py line 63): pid, expocode, start
time and end time (the dates modelled by their rendered strings; `main`
only ever sorts them and passes them on). -/
structure IcosTuple where
  pid : String
  expocode : String
  timeStart : String
  timeEnd : String
  deriving DecidableEq

/-- Python `sorted(...)` over the listing.  Tuples compare
lexicographically, so listings with distinct pids are ordered by pid;
the order is in fact irrelevant below, because any nonempty listing
aborts the run at the first element. -/
def sortIcos (listing : List IcosTuple) : List IcosTuple :=
  List.insertionSort (fun a b => strLe a.pid b.pid = true) listing

/-- First loop of `update_from_icos.main`: the header
`for (pid, start_date, end_date) in datasets:` (line 27) unpacks each
4-tuple of the listing into three names, so the first element of a
nonempty listing raises `ValueError: too many values to unpack` — the
loop body (`is_in_db` / `add_pid` / `undelete`) is never reached. -/
def reconcileTuples : Store → List IcosTuple → Except String Store
  | s, [] => .ok s
  | _, _ :: _ => .error "too many values to unpack (expected 3)"

/-- The body of `update_from_icos.main`: sort the listing, run the
add/undelete loop (which aborts on any nonempty listing, see
`reconcileTuples`), mark the active pids missing from the listing as
deleted, then refresh the metadata of every listing pid.  `fetch`
stands for the per-pid metadata tree `icos.get_metadata` assembles from
the portal (its mapping has exactly one key per listing pid).  An
`.error` result is the unhandled-exception path of `main` (logged,
`exit(1)`). -/
def mainRun (s : Store) (listing : List IcosTuple) (fetch : String → Json)
    (now : String) : Except String Store := do
  let datasets := sortIcos listing
  let s1 ← reconcileTuples s datasets
  let newly :=
    (get_active_pids s1).filter
      (fun p => !((datasets.map (·.pid)).contains p))
  let s2 ← deletePids now s1 newly
  refreshMetadata s2 (datasets.map (fun t => (t.pid, fetch t.pid)))

/-- The committed tracking store after one invocation of `main`: on the
exception path the sqlite connection context manager rolls the open
transaction back (and in fact nothing was written before the raise), so
the table is exactly what it was. -/
def mainCommitted (s : Store) (listing : List IcosTuple)
    (fetch : String → Json) (now : String) : Store :=
  match mainRun s listing fetch now with
  | .ok s' => s'
  | .error _ => s

/-!
Descriptor generation (`populate_erddap.py`).
-/

/-- The `Attribute` class (its module is not part of the sources here;
the shape is determined by its construction sites and by
`_make_attribute_xml`): positional fields name, value, and an optional
type defaulting to None. -/
structure Attribute where
  name : String
  value : String
  attr_type : Option String := none
  deriving DecidableEq

/-- Escape of one character under Python `html.escape` (quote=True). -/
def escapeChar (c : Char) : String :=
  if c = '&' then "&amp;"
  else if c = '<' then "&lt;"
  else if c = '>' then "&gt;"
  else if c = '"' then "&quot;"
  else if c = Char.ofNat 39 then "&#x27;"
  else String.singleton c

/-- Python `html.escape` with its default quoting. -/
def htmlEscape (s : String) : String := String.join (s.toList.map escapeChar)

/-- `populate_erddap._make_attribute_xml`: note that the value is
interpolated verbatim (escaping, where it happens, is done by the
caller). -/
def make_attribute_xml (a : Attribute) : String :=
  "<att name=\"" ++ a.name ++ "\"" ++
    (match a.attr_type with
     | some t => " type=\"" ++ t ++ "\""
     | none => "") ++ ">" ++ a.value ++ "</att>\n"

/-- Python `sep.join(parts)`. -/
def joinSep (sep : String) : List String → String
  | [] => ""
  | [x] => x
  | x :: xs => x ++ sep ++ joinSep sep xs

/-- One organisation of a person in the assembled metadata (id and name,
as built by `icos.get_metadata`). -/
structure Org where
  id : String
  name : String
  deriving DecidableEq

/-- One person entry of the `people` metadata section, with the seven
scalar fields read by `_make_people_xml` plus the organisations. -/
structure Person where
  id : String
  title : String
  firstName : String
  middleName : String
  lastName : String
  email : String
  orcid : String
  orgs : List Org
  deriving DecidableEq

/-- Attribute block of one person, `person_<i>_<field>` for the seven
keys in source order, then `person_<i>_org` joining the organisation
names with a semicolon.  As in the source, none of the values passes
through `html.escape`. -/
def personXml (i : Nat) (p : Person) : String :=
  make_attribute_xml ⟨"person_" ++ toString i ++ "_id", p.id, none⟩ ++
  make_attribute_xml ⟨"person_" ++ toString i ++ "_title", p.title, none⟩ ++
  make_attribute_xml ⟨"person_" ++ toString i ++ "_firstName", p.firstName, none⟩ ++
  make_attribute_xml ⟨"person_" ++ toString i ++ "_middleName", p.middleName, none⟩ ++
  make_attribute_xml ⟨"person_" ++ toString i ++ "_lastName", p.lastName, none⟩ ++
  make_attribute_xml ⟨"person_" ++ toString i ++ "_email", p.email, none⟩ ++
  make_attribute_xml ⟨"person_" ++ toString i ++ "_orcid", p.orcid, none⟩ ++
  make_attribute_xml
    ⟨"person_" ++ toString i ++ "_org", joinSep ";" (p.orgs.map (·.name)), none⟩

/-- Loop of `_make_people_xml`, `entry_index` starting at 1. -/
def peopleXmlAux : Nat → List Person → String
  | _, [] => ""
  | i, p :: rest => personXml i p ++ peopleXmlAux (i + 1) rest

/-- `populate_erddap._make_people_xml`: empty when the metadata has no
`people` key (modelled as `none`), else the flattened per-person
attribute list. -/
def make_people_xml (people : Option (List Person)) : String :=
  match people with
  | none => ""
  | some entries => peopleXmlAux 1 entries

/-!
Extra-attribute parsing (`_generate_data_variables_xml`, lines 228-238):
each semicolon-separated entry must match the greedy regular expression
`(.*):(.*)=(.*)`.
-/

/-- Whether `pat` is an initial segment of `s`. -/
def startsList : List Char → List Char → Bool
  | [], _ => true
  | _ :: _, [] => false
  | p :: ps, c :: cs => p = c && startsList ps cs

/-- Split at the LAST occurrence of `c` whose suffix satisfies `ok`,
returning the parts before and after that occurrence.  This is the
backtracking behaviour of a greedy `(.*)c(...)` group. -/
def splitLastChar (c : Char) (ok : List Char → Bool) :
    List Char → Option (List Char × List Char)
  | [] => none
  | x :: xs =>
    match splitLastChar c ok xs with
    | some (pre, post) => some (x :: pre, post)
    | none => if x = c && ok xs then some ([], xs) else none

/-- Result of `re.search("(.*):(.*)=(.*)", s)`: group 1 ends at the last
colon followed (anywhere later) by an equals sign, group 2 is then
maximal, so it ends at the last equals sign of the remainder. -/
def regexAttrMatch (s : String) : Option (String × String × String) :=
  match splitLastChar ':' (fun xs => xs.contains '=') s.toList with
  | none => none
  | some (g1, rest) =>
    match splitLastChar '=' (fun _ => true) rest with
    | none => none
    | some (g2, g3) => some (String.mk g1, String.mk g2, String.mk g3)

/-- Parsing of one extra-attribute entry: `ValueError` when the pattern
does not match; an empty type group gives an untyped attribute. -/
def parseAttrEntry (attr : String) : Except String Attribute :=
  match regexAttrMatch attr with
  | none => .error ("Invalid attribute specification " ++ attr)
  | some (n, t, v) =>
    if t.length = 0 then .ok ⟨n, v, none⟩ else .ok ⟨n, v, some t⟩

/-- The `for attr in other_attrs` loop: parse each entry in order; the
first failure propagates (aborting the row, as the raised `ValueError`
does). -/
def parseAttrEntries : List String → Except String (List Attribute)
  | [] => .ok []
  | e :: rest => do
    let a ← parseAttrEntry e
    let as ← parseAttrEntries rest
    .ok (a :: as)

/-- Python `str.split(c)` for a single-character separator. -/
def splitOnChar (c : Char) : List Char → List (List Char)
  | [] => [[]]
  | x :: xs =>
    let r := splitOnChar c xs
    if x = c then [] :: r
    else
      match r with
      | [] => [[x]]
      | h :: t => (x :: h) :: t

/-- Python `str.strip()`. -/
def stripStr (s : String) : String :=
  String.mk
    (((s.toList.dropWhile Char.isWhitespace).reverse.dropWhile
        Char.isWhitespace).reverse)

/-- The whole extra-attribute cell: `fields[OTHER_ATTRIBUTES_COL]`
stripped, split on semicolons, each entry parsed. -/
def parseOtherAttrCell (cell : String) : Except String (List Attribute) :=
  parseAttrEntries ((splitOnChar ';' (stripStr cell).toList).map String.mk)

/-!
Grid axis computation (`_write_datasets_xml`, lines 386-397, and
`make_axis_variable` / `make_gridded_var`).  Numeric cell values are
modelled as integers: only their order and multiplicity matter to these
definitions.
-/

/-- Distinct values of a column in order of first appearance: the
behaviour of pandas `Series.unique()`. -/
def uniqueAux {α : Type} [DecidableEq α] (seen : List α) : List α → List α
  | [] => []
  | x :: xs =>
    if x ∈ seen then uniqueAux seen xs else x :: uniqueAux (x :: seen) xs

/-- Distinct values in order of first appearance. -/
def uniqueValues {α : Type} [DecidableEq α] (l : List α) : List α :=
  uniqueAux [] l

/-- Values of the time axis, line 386-387: `sorted(set(times))`. -/
def timeAxisValues (times : List Int) : List Int :=
  List.insertionSort (· ≤ ·) (uniqueValues times)

/-- Values of the longitude and latitude axes, lines 389-390:
`sorted(df[col].dropna().unique())`; a missing cell is `none`. -/
def coordAxisValues (col : List (Option Int)) : List Int :=
  List.insertionSort (· ≤ ·) (uniqueValues (col.filterMap id))

/-- Values of the depth axis, line 393: `df[col].unique()` — no
`sorted`, no `dropna` (the column is modelled without missing cells). -/
def depthAxisValues (col : List Int) : List Int := uniqueValues col

/-- `populate_erddap.make_axis_variable`. -/
def make_axis_variable (name : String) (values : List Int) : String :=
  "<axisVariable>\n" ++
  "<sourceName>" ++ name ++ "</sourceName>\n" ++
  "<destinationName>" ++ name ++ "</destinationName>\n" ++
  "<addAttributes>\n" ++
  "<att name=\"axisValues\" type=\"doubleList\">" ++
  joinSep "," (values.map toString) ++
  "</att>\n" ++
  "</addAttributes>\n" ++
  "</axisVariable>\n"

/-- `populate_erddap.make_gridded_var`. -/
def make_gridded_var (v : String) : String :=
  "<dataVariable>\n" ++
  "<sourceName>" ++ v ++ "</sourceName>\n" ++
  "<destinationName>" ++ v ++ "</destinationName>\n" ++
  "<addAttributes/>\n" ++
  "</dataVariable>\n"

/-- Per-entity output of `_write_datasets_xml` (lines 340-407) for one
dataset id: the gridded wrapper (inactive when the entity is deleted),
the gridded start template, the axis/variable XML, the embedded flat
entry, the wrapper close, then the flat entry again on its own.  Line
343 reads `main_dataset_xml.replace('active="true"', 'active="false"')`
without assigning the result; Python strings are immutable, so the
statement has no effect and the flat entry is used unchanged — the
model reproduces exactly that. -/
def entityBlock (griddedStartTemplate : String) (id : String)
    (flatXml : String) (deleted : Bool) (axesAndVarsXml : String) : String :=
  "<dataset type=\"EDDGridFromEDDTable\" datasetID=\"" ++ id ++
    "--gridded\" active=\"" ++ (if deleted then "false" else "true") ++
    "\">\n" ++ griddedStartTemplate ++ axesAndVarsXml ++ flatXml ++
    "</dataset>\n" ++ flatXml

/-- Whether `pat` occurs contiguously inside `s`. -/
def occursIn (pat : List Char) : List Char → Bool
  | [] => startsList pat []
  | c :: cs => startsList pat (c :: cs) || occursIn pat cs

/-- Whether the string `pat` occurs inside the string `s`. -/
def strOccurs (pat s : String) : Bool := occursIn pat.toList s.toList

/-- Python `str.replace(pat, rep)` for a non-empty pattern: replace all
non-overlapping occurrences left to right (fuel-driven; the fuel is the
length of the scanned list, enough because each step consumes at least
one character). -/
def replaceAux (pat rep : List Char) : Nat → List Char → List Char
  | 0, l => l
  | _ + 1, [] => []
  | fuel + 1, c :: cs =>
    if startsList pat (c :: cs) && !pat.isEmpty then
      rep ++ replaceAux pat rep fuel (List.drop pat.length (c :: cs))
    else c :: replaceAux pat rep fuel cs

/-- Python `s.replace(pat, rep)` (non-empty pattern). -/
def pyReplace (s pat rep : String) : String :=
  String.mk (replaceAux pat.toList rep.toList s.toList.length s.toList)

/-- Rows of the store in ascending id order (`ORDER BY id`). -/
def sortStore (s : Store) : Store :=
  List.insertionSort (fun a b => strLe a.id b.id = true) s

/-- Concatenation loop of `database.get_datasets_xml`: for each row in
id order take its stored entry, rewriting `active="true"` to
`active="false"` when the row is deleted; a NULL entry makes the Python
crash (`AttributeError`/`TypeError`), modelled as an error. -/
def datasetsXmlRows : List DataObject → Except String String
  | [] => .ok ""
  | r :: rest => do
    match r.datasets_xml with
    | none => .error "datasets_xml is NULL"
    | some x =>
      let piece :=
        if r.deleted then pyReplace x "active=\"true\"" "active=\"false\""
        else x
      let tail ← datasetsXmlRows rest
      .ok (piece ++ tail)

/-- `database.get_datasets_xml`: note that, unlike the caller in
`_write_datasets_xml`, this function DOES apply the active-marker
replacement for deleted rows, and returns one concatenated string. -/
def get_datasets_xml (s : Store) : Except String String :=
  datasetsXmlRows (sortStore s)

/-!
Adaptive throttle of `icos.run_query` (lines 270-286), over an integer
timeline.
-/

/-- The observable instants of one `run_query` call: `checkTime` is
`datetime.now()` at line 274, `startTime` is `query_start` (line 279),
`endTime` is `query_end` (line 281) and `recordTime` is `datetime.now()`
at line 284. -/
structure QueryExec where
  checkTime : Int
  startTime : Int
  endTime : Int
  recordTime : Int

/-- Line 284: the module-level `_NEXT_QUERY_TIME` after the call is
`datetime.now() + 2 * (query_end - query_start)`. -/
def runQueryNext (e : QueryExec) : Option Int :=
  some (e.recordTime + 2 * (e.endTime - e.startTime))

/-- Timeline constraints of one call, given the `_NEXT_QUERY_TIME` state
on entry: the clock is monotone through the call, and by lines 273-276
(`pause.until(_NEXT_QUERY_TIME)` whenever `datetime.now()` is still
before it) the query start is never before the recorded next-query
time. -/
def execWellFormed (nextQueryTime : Option Int) (e : QueryExec) : Prop :=
  e.checkTime ≤ e.startTime ∧ e.startTime ≤ e.endTime ∧
    e.endTime ≤ e.recordTime ∧
    ∀ t, nextQueryTime = some t → t ≤ e.startTime

/-- Data-model invariant of the spec: a row is flagged deleted exactly
when it carries a deletion timestamp. -/
def StoreInv (s : Store) : Prop :=
  ∀ r ∈ s, (r.deleted = true → r.deleted_time ≠ none) ∧
    (r.deleted = false → r.deleted_time = none)

deriving instance DecidableEq for Except

/-!
Helper lemmas.
-/

theorem ids_append (s t : Store) : ids (s ++ t) = ids s ++ ids t := by
  simp [ids]

theorem ids_map_of_id_eq (s : Store) (f : DataObject → DataObject)
    (hf : ∀ r, (f r).id = r.id) : ids (s.map f) = ids s := by
  simp only [ids, List.map_map]
  exact List.map_congr_left fun r _ => hf r

theorem in_db_iff (s : Store) (p : String) :
    is_in_db s p = true ↔ p ∈ ids s := by
  simp [is_in_db, List.contains, List.elem_iff]

theorem in_db_false_iff (s : Store) (p : String) :
    is_in_db s p = false ↔ p ∉ ids s := by
  rw [← Bool.not_eq_true, not_iff_not]
  exact in_db_iff s p

theorem contains_iff {l : List String} {p : String} :
    l.contains p = true ↔ p ∈ l := by
  simp [List.contains, List.elem_iff]

theorem contains_false_iff {l : List String} {p : String} :
    l.contains p = false ↔ p ∉ l := by
  rw [← Bool.not_eq_true, not_iff_not]
  exact contains_iff

/-- In a list whose keys are distinct, `find?` on a key returns exactly
the member carrying that key. -/
theorem find?_key_unique {α : Type} (key : α → String) {l : List α}
    (hn : (l.map key).Nodup) {x : α} (hx : x ∈ l) {p : String}
    (hk : key x = p) : l.find? (fun y => key y == p) = some x := by
  induction l with
  | nil => cases hx
  | cons h t ih =>
    simp only [List.map_cons, List.nodup_cons] at hn
    by_cases hh : key h = p
    · have hxh : x = h := by
        rcases List.mem_cons.mp hx with rfl | hxt
        · rfl
        · have hmem : key h ∈ List.map key t := by
            rw [hh, ← hk]
            exact List.mem_map.mpr ⟨x, hxt, rfl⟩
          exact absurd hmem hn.1
      subst hxh
      simp [List.find?, hh]
    · have hxt : x ∈ t := by
        rcases List.mem_cons.mp hx with rfl | hxt
        · exact absurd hk hh
        · exact hxt
      have : (key h == p) = false := by
        simp [hh]
      simp [List.find?, this]
      exact ih hn.2 hxt

theorem mem_key_of_nodup {α : Type} (key : α → String) {l : List α}
    (hn : (l.map key).Nodup) {x y : α} (hx : x ∈ l) (hy : y ∈ l)
    (hk : key x = key y) : x = y :=
  List.inj_on_of_nodup_map hn hx hy hk

theorem exceptBindOk {ε α β : Type} (a : α) (f : α → Except ε β) :
    (Except.ok a >>= f) = f a := rfl

theorem ids_def (s : Store) : ids s = s.map (fun r => r.id) := rfl

theorem find?_store {s : Store} (hs : (ids s).Nodup) {r : DataObject}
    (hr : r ∈ s) {p : String} (hid : r.id = p) :
    s.find? (fun x => x.id == p) = some r :=
  find?_key_unique (fun x => x.id) (ids_def s ▸ hs) hr hid

theorem store_rec_unique {s : Store} (hs : (ids s).Nodup)
    {r r' : DataObject} (hr : r ∈ s) (hr' : r' ∈ s) (hid : r.id = r'.id) :
    r = r' :=
  mem_key_of_nodup (fun x => x.id) (ids_def s ▸ hs) hr hr' hid

theorem delRec_id (now : String) (r : DataObject) : (delRec now r).id = r.id :=
  rfl

theorem mark_deleted_eq {s : Store} {p : String} (now : String)
    (h : is_in_db s p = true) :
    mark_deleted s p now =
      .ok (s.map (fun r => if r.id == p then delRec now r else r)) := by
  unfold mark_deleted
  rw [if_pos h]

theorem deletePids_eq (qs : List String) : ∀ (s : Store) (now : String),
    (ids s).Nodup → qs.Nodup → (∀ q ∈ qs, q ∈ ids s) →
    deletePids now s qs =
      .ok (s.map (fun r => if qs.contains r.id then delRec now r else r)) := by
  induction qs with
  | nil =>
    intro s now _ _ _
    have hm : s.map
        (fun r => if ([] : List String).contains r.id then delRec now r else r)
          = s.map (fun r => r) :=
      List.map_congr_left (fun r _ => by simp)
    simp [deletePids, hm]
  | cons q rest ih =>
    intro s now hs hnd hmem
    obtain ⟨hq, hrest⟩ := List.nodup_cons.mp hnd
    have hqdb : is_in_db s q = true := (in_db_iff s q).mpr (hmem q (by simp))
    have hstep := mark_deleted_eq now hqdb
    simp only [deletePids, hstep, exceptBindOk]
    have hids' :
        ids (s.map (fun r => if r.id == q then delRec now r else r)) = ids s :=
      ids_map_of_id_eq s _ (fun r => by split <;> rfl)
    have hmem' : ∀ x ∈ rest,
        x ∈ ids (s.map (fun r => if r.id == q then delRec now r else r)) := by
      intro x hx
      rw [hids']
      exact hmem x (List.mem_cons_of_mem q hx)
    rw [ih _ now (hids' ▸ hs) hrest hmem']
    congr 1
    rw [List.map_map]
    apply List.map_congr_left
    intro r hr
    simp only [Function.comp_apply]
    by_cases hrid : r.id = q
    · have hqrest : q ∉ rest := hq
      simp [delRec, hrid, hqrest]
    · simp [hrid]

theorem active_sub {s : Store} {q : String} (hq : q ∈ get_active_pids s) :
    q ∈ ids s := by
  unfold get_active_pids at hq
  rw [(List.perm_insertionSort _ _).mem_iff] at hq
  obtain ⟨r, hr, rfl⟩ := List.mem_map.mp hq
  exact List.mem_map.mpr ⟨r, (List.mem_filter.mp hr).1, rfl⟩

theorem active_nodup {s : Store} (hs : (ids s).Nodup) :
    (get_active_pids s).Nodup := by
  unfold get_active_pids
  refine ((List.perm_insertionSort _ _).nodup_iff).mpr ?_
  have hsub : List.Sublist ((s.filter (fun r => !r.deleted)).map (·.id))
      (s.map (·.id)) := (List.filter_sublist s).map _
  exact (ids_def s ▸ hs).sublist hsub

theorem active_pids_mem {s : Store} (hs : (ids s).Nodup) {r : DataObject}
    (hr : r ∈ s) : r.id ∈ get_active_pids s ↔ r.deleted = false := by
  unfold get_active_pids
  rw [(List.perm_insertionSort _ _).mem_iff]
  constructor
  · intro h
    obtain ⟨r', hr', hid⟩ := List.mem_map.mp h
    obtain ⟨hr's, hdel⟩ := List.mem_filter.mp hr'
    have hre : r' = r := store_rec_unique hs hr's hr hid
    rw [← hre]
    simpa using hdel
  · intro h
    exact List.mem_map.mpr ⟨r, List.mem_filter.mpr ⟨hr, by simp [h]⟩, rfl⟩

/-- C6.  The three row-lifecycle operations preserve the invariant that
`deleted = true` goes with a non-NULL `deleted_time` and
`deleted = false` with a NULL one: `add_pid` inserts an active row with
no timestamp, `mark_deleted` sets flag and timestamp together, and
`undelete` clears them together. -/
theorem c6_deleted_time_invariant (s : Store) (hInv : StoreInv s) :
    (∀ p s', add_pid s p = .ok s' → StoreInv s') ∧
    (∀ p now s', mark_deleted s p now = .ok s' → StoreInv s') ∧
    (∀ p s', undelete s p = .ok s' → StoreInv s') := by
  refine ⟨?_, ?_, ?_⟩
  · intro p s' h
    unfold add_pid at h
    split at h
    · cases h
    · injection h with h'
      subst h'
      intro r hr
      rcases List.mem_append.mp hr with hrs | hrf
      · exact hInv r hrs
      · rw [List.mem_singleton.mp hrf]
        refine ⟨?_, ?_⟩
        · intro hcon
          simp [freshRec] at hcon
        · intro _
          rfl
  · intro p now s' h
    unfold mark_deleted at h
    split at h
    · injection h with h'
      subst h'
      intro r hr
      obtain ⟨y, hy, rfl⟩ := List.mem_map.mp hr
      by_cases hyid : (y.id == p) = true
      · rw [if_pos hyid]
        refine ⟨?_, ?_⟩
        · intro _
          simp [delRec]
        · intro hcon
          simp [delRec] at hcon
      · rw [if_neg hyid]
        exact hInv y hy
    · cases h
  · intro p s' h
    unfold undelete at h
    split at h
    · injection h with h'
      subst h'
      intro r hr
      obtain ⟨y, hy, rfl⟩ := List.mem_map.mp hr
      by_cases hyid : (y.id == p) = true
      · rw [if_pos hyid]
        refine ⟨?_, ?_⟩
        · intro hcon
          simp [undelRec] at hcon
        · intro _
          rfl
      · rw [if_neg hyid]
        exact hInv y hy
    · cases h

theorem find?_update {s : Store} (hs : (ids s).Nodup) {r : DataObject}
    (hr : r ∈ s) {p : String} (hid : r.id = p) (f : DataObject → DataObject)
    (hf : ∀ x, (f x).id = x.id) :
    (s.map (fun x => if x.id == p then f x else x)).find?
      (fun x => x.id == p) = some (f r) := by
  have hids' : ids (s.map (fun x => if x.id == p then f x else x)) = ids s :=
    ids_map_of_id_eq s _ (fun x => by split <;> [exact hf x; rfl])
  apply find?_store (hids' ▸ hs)
  · exact List.mem_map.mpr ⟨r, hr, by rw [if_pos (beq_iff_eq.mpr hid)]⟩
  · rw [hf, hid]

/-- C10.  `mark_deleted` does not only set the deleted flag and
timestamp: it also clears the `new` and `updated` flags of the row.
Consequently an entity deleted while still new and later undeleted comes
back with `new = false` (a pending first download is cancelled by the
deletion), and its pending regeneration obligation is cancelled too. -/
theorem c10_mark_deleted_clears_new_and_updated (s : Store) (p now : String)
    (hs : (ids s).Nodup) (r : DataObject) (hr : r ∈ s) (hid : r.id = p) :
    ∃ s1 s2, mark_deleted s p now = .ok s1 ∧
      s1.find? (fun x => x.id == p) = some
        { r with
            isNew := false, updated := false, deleted := true,
            deleted_time := some now } ∧
      undelete s1 p = .ok s2 ∧
      s2.find? (fun x => x.id == p) = some
        { r with
            isNew := false, updated := true, deleted := false,
            deleted_time := none } := by
  have hdb : is_in_db s p = true :=
    (in_db_iff s p).mpr (hid ▸ List.mem_map.mpr ⟨r, hr, rfl⟩)
  have hids1 : ids (s.map (fun x => if x.id == p then delRec now x else x)) =
      ids s :=
    ids_map_of_id_eq s _ (fun x => by split <;> rfl)
  have hdb1 : is_in_db
      (s.map (fun x => if x.id == p then delRec now x else x)) p = true := by
    unfold is_in_db
    rw [hids1]
    exact hdb
  refine ⟨s.map (fun x => if x.id == p then delRec now x else x),
    (s.map (fun x => if x.id == p then delRec now x else x)).map
      (fun x => if x.id == p then undelRec x else x),
    mark_deleted_eq now hdb, ?_, ?_, ?_⟩
  · exact find?_update hs hr hid (delRec now) (fun x => rfl)
  · unfold undelete
    rw [if_pos hdb1]
  · have hmem1 : delRec now r ∈
        s.map (fun x => if x.id == p then delRec now x else x) :=
      List.mem_map.mpr ⟨r, hr, by rw [if_pos (beq_iff_eq.mpr hid)]⟩
    have hid2 : (delRec now r).id = p := by rw [delRec_id, hid]
    have hres := find?_update (hids1 ▸ hs) hmem1 hid2 undelRec
      (fun x => rfl)
    exact hres

/-- C4.  Adaptive throttling of `icos.run_query`: across two consecutive
calls, the later query does not start until at least twice the duration
of the earlier query has elapsed since the earlier query started.  The
hypotheses are the timeline constraints of the two calls (monotone
clock, and the pause of lines 273-276 honouring the recorded
next-query time). -/
theorem c4_throttle_spacing (n0 : Option Int) (e1 e2 : QueryExec)
    (h1 : execWellFormed n0 e1) (h2 : execWellFormed (runQueryNext e1) e2) :
    e1.startTime + 2 * (e1.endTime - e1.startTime) ≤ e2.startTime := by
  obtain ⟨h1a, h1b, h1c, _⟩ := h1
  obtain ⟨h2a, h2b, h2c, h2d⟩ := h2
  have hwait := h2d (e1.recordTime + 2 * (e1.endTime - e1.startTime)) rfl
  linarith

set_option maxRecDepth 40000

/-- C1 (code-bug evidence).  For a deleted entity, the per-entity block
written by `_write_datasets_xml` renders the gridded wrapper inactive
but leaves the flat descriptor with `active="true"`, because line 343
discards the result of `str.replace`; the claim (and the spec) require
both descriptors to carry the inactive marker.  The last conjunct shows
that `database.get_datasets_xml` — the other implementation of the same
assembly in this repository — does apply the replacement, confirming
the intent. -/
theorem c1_deleted_flat_descriptor_stays_active :
    (strOccurs "datasetID=\"P1\" active=\"true\""
      (entityBlock "GRIDSTART\n" "P1"
        "<dataset type=\"EDDTableFromAsciiFiles\" datasetID=\"P1\" active=\"true\">\nBODY\n</dataset>\n"
        true "AXES\n") = true) ∧
    (strOccurs "--gridded\" active=\"false\""
      (entityBlock "GRIDSTART\n" "P1"
        "<dataset type=\"EDDTableFromAsciiFiles\" datasetID=\"P1\" active=\"true\">\nBODY\n</dataset>\n"
        true "AXES\n") = true) ∧
    (strOccurs "datasetID=\"P1\" active=\"false\""
      (entityBlock "GRIDSTART\n" "P1"
        "<dataset type=\"EDDTableFromAsciiFiles\" datasetID=\"P1\" active=\"true\">\nBODY\n</dataset>\n"
        true "AXES\n") = false) ∧
    get_datasets_xml [⟨"P1", none,
      some "<dataset type=\"EDDTableFromAsciiFiles\" datasetID=\"P1\" active=\"true\">\nBODY\n</dataset>\n",
      false, false, true, some "T"⟩] =
      .ok "<dataset type=\"EDDTableFromAsciiFiles\" datasetID=\"P1\" active=\"false\">\nBODY\n</dataset>\n" := by
  exact ⟨by decide, by decide, by decide, by decide⟩

/-- C7 (code-bug evidence).  The depth axis of the grid descriptor
(line 393) emits `df[col].unique()` without sorting: for the column
values 2, 1 it lists 2,1 — distinct but not ascending — while the same
values fed through the time computation (`sorted(set(...))`, line 386)
or the longitude/latitude computation (`sorted(...unique())`, lines
389-390) come out ascending. -/
theorem c7_depth_axis_values_unsorted :
    depthAxisValues ([2, 1] : List Int) = [2, 1] ∧
    ¬ List.Sorted (· ≤ ·) (depthAxisValues ([2, 1] : List Int)) ∧
    strOccurs ">2,1</att>"
      (make_axis_variable "depth" (depthAxisValues [2, 1])) = true ∧
    timeAxisValues [2, 1] = [1, 2] ∧
    coordAxisValues [some 2, some 1] = [1, 2] := by
  exact ⟨by decide, by decide, by decide, by decide, by decide⟩

/-- C8.  Parsing the extra-attribute entry `foo:float=1.5` yields the
attribute named `foo` of type `float` with value `1.5` (also through
the whole-cell strip/split pipeline), and any entry list containing the
colon-less entry `foo=1.5` makes the parse raise the
invalid-attribute-specification error. -/
theorem c8_extra_attribute_parsing :
    parseAttrEntry "foo:float=1.5" = .ok ⟨"foo", "1.5", some "float"⟩ ∧
    parseOtherAttrCell "foo:float=1.5" = .ok [⟨"foo", "1.5", some "float"⟩] ∧
    (∀ entries : List String, "foo=1.5" ∈ entries →
      ∃ m, parseAttrEntries entries = .error m) := by
  refine ⟨by decide, by decide, ?_⟩
  intro entries
  induction entries with
  | nil =>
    intro h
    cases h
  | cons e rest ih =>
    intro hmem
    rcases List.mem_cons.mp hmem with rfl | hmem'
    · exact ⟨"Invalid attribute specification foo=1.5", rfl⟩
    · obtain ⟨m, hm⟩ := ih hmem'
      cases he : parseAttrEntry e with
      | error m2 =>
        refine ⟨m2, ?_⟩
        simp only [parseAttrEntries, he]
        rfl
      | ok a =>
        refine ⟨m, ?_⟩
        simp only [parseAttrEntries, he, exceptBindOk, hm]
        rfl

/-- C9 (code-bug evidence).  The flattened per-person attribute values
and the organisation names are interpolated into the flat descriptor
verbatim: a last name `A<B` appears raw in the output of
`_make_people_xml` and its escaped form does not, and likewise for an
organisation named `Org&Co` — though `html.escape` (used for every
station-level value) would have produced `A&lt;B` and `Org&amp;Co`. -/
theorem c9_person_values_not_escaped :
    htmlEscape "A<B" = "A&lt;B" ∧
    strOccurs "<att name=\"person_1_lastName\">A<B</att>"
      (make_people_xml (some [⟨"pid1", "Dr", "Jo", "M", "A<B", "jo", "orc",
        [⟨"o1", "Org&Co"⟩]⟩])) = true ∧
    strOccurs "A&lt;B"
      (make_people_xml (some [⟨"pid1", "Dr", "Jo", "M", "A<B", "jo", "orc",
        [⟨"o1", "Org&Co"⟩]⟩])) = false ∧
    strOccurs "<att name=\"person_1_org\">Org&Co</att>"
      (make_people_xml (some [⟨"pid1", "Dr", "Jo", "M", "A<B", "jo", "orc",
        [⟨"o1", "Org&Co"⟩]⟩])) = true ∧
    strOccurs "Org&amp;Co"
      (make_people_xml (some [⟨"pid1", "Dr", "Jo", "M", "A<B", "jo", "orc",
        [⟨"o1", "Org&Co"⟩]⟩])) = false := by
  exact ⟨by decide, by decide, by decide, by decide, by decide⟩

/-- Witness for C4 on a concrete timeline: the first query runs from 0
to 1 and records next-query time 3; the second starts at 3, which is at
least 0 + 2 times 1. -/
theorem c4_witness :
    (0 : Int) + 2 * (1 - 0) ≤ 3 :=
  c4_throttle_spacing none ⟨0, 0, 1, 1⟩ ⟨1, 3, 4, 4⟩
    ⟨by norm_num, by norm_num, by norm_num,
      fun t ht => Option.noConfusion ht⟩
    ⟨by norm_num, by norm_num, by norm_num,
      fun t ht => by
        injection ht with hh
        rw [← hh]
        norm_num⟩

theorem storeInv_singleton (r : DataObject)
    (h1 : r.deleted = true → r.deleted_time ≠ none)
    (h2 : r.deleted = false → r.deleted_time = none) : StoreInv [r] := by
  intro x hx
  rw [List.mem_singleton.mp hx]
  exact ⟨h1, h2⟩

/-- Witness for C6: undeleting a deleted row of a store satisfying the
invariant yields a store satisfying it. -/
theorem c6_witness :
    StoreInv [⟨"y", none, none, false, true, false, none⟩] :=
  (c6_deleted_time_invariant
      [⟨"y", none, none, false, false, true, some "T"⟩]
      (storeInv_singleton _ (fun _ => by decide)
        (fun hcon => Bool.noConfusion hcon))).2.2
    "y" _ (by decide)

/-- Witness for C8: a cell list holding the malformed entry parses to
the invalid-attribute-specification error. -/
theorem c8_witness :
    ("foo=1.5" ∈ ["foo:float=1.5", "foo=1.5"]) ∧
      ∃ m, parseAttrEntries ["foo:float=1.5", "foo=1.5"] = .error m :=
  ⟨by decide, c8_extra_attribute_parsing.2.2 ["foo:float=1.5", "foo=1.5"]
    (by decide)⟩

/-- Witness for C10: a new, regeneration-pending row is marked deleted
(new and updated cleared, timestamp set) and then undeleted (it comes
back with `new = false`). -/
theorem c10_witness :
    ∃ s1 s2, mark_deleted
        [(⟨"N", none, none, true, true, false, none⟩ : DataObject)] "N" "T" =
        .ok s1 ∧
      s1.find? (fun x => x.id == "N") =
        some ⟨"N", none, none, false, false, true, some "T"⟩ ∧
      undelete s1 "N" = .ok s2 ∧
      s2.find? (fun x => x.id == "N") =
        some ⟨"N", none, none, false, true, false, none⟩ :=
  c10_mark_deleted_clears_new_and_updated
    [⟨"N", none, none, true, true, false, none⟩] "N" "T" (by decide)
    ⟨"N", none, none, true, true, false, none⟩ (by decide) rfl

theorem mainCommitted_of_ok (s : Store) (L : List IcosTuple)
    (f : String → Json) (now : String) {s' : Store}
    (h : mainRun s L f now = .ok s') : mainCommitted s L f now = s' := by
  unfold mainCommitted
  rw [h]

theorem mainCommitted_of_error (s : Store) (L : List IcosTuple)
    (f : String → Json) (now : String) {m : String}
    (h : mainRun s L f now = .error m) : mainCommitted s L f now = s := by
  unfold mainCommitted
  rw [h]

theorem mainRun_of_nonempty (s : Store) (L : List IcosTuple)
    (f : String → Json) (now : String) {t : IcosTuple} {ts : List IcosTuple}
    (hsort : sortIcos L = t :: ts) :
    mainRun s L f now = .error "too many values to unpack (expected 3)" := by
  simp only [mainRun]
  rw [hsort]
  rfl

theorem mainRun_of_empty (s : Store) (L : List IcosTuple)
    (f : String → Json) (now : String) (hs : (ids s).Nodup)
    (hsort : sortIcos L = []) :
    mainRun s L f now = .ok (s.map (fun r =>
      if (get_active_pids s).contains r.id then delRec now r else r)) := by
  simp only [mainRun]
  rw [hsort]
  rw [show reconcileTuples s ([] : List IcosTuple) = .ok s from rfl]
  rw [exceptBindOk]
  have h1 : ∀ p ∈ get_active_pids s,
      (!((List.map (fun t : IcosTuple => t.pid)
        ([] : List IcosTuple)).contains p)) = (fun _ : String => true) p :=
    fun p _ => rfl
  rw [List.filter_congr h1, List.filter_true]
  rw [deletePids_eq (get_active_pids s) s now hs (active_nodup hs)
    (fun q hq => active_sub hq)]
  rw [exceptBindOk]
  rfl

theorem all_deleted_after_empty_run (s : Store) (now : String)
    (hs : (ids s).Nodup) :
    ∀ r' ∈ s.map (fun r =>
      if (get_active_pids s).contains r.id then delRec now r else r),
      r'.deleted = true := by
  intro r' hr'
  obtain ⟨r, hr, rfl⟩ := List.mem_map.mp hr'
  by_cases hc : ((get_active_pids s).contains r.id) = true
  · rw [if_pos hc]
    rfl
  · have hcf : ((get_active_pids s).contains r.id) = false := by simpa using hc
    rw [if_neg (by rw [hcf]; simp)]
    rcases hb : r.deleted with _ | _
    · exfalso
      have h2 : ((get_active_pids s).contains r.id) = true :=
        contains_iff.mpr ((active_pids_mem hs hr).mpr hb)
      rw [hcf] at h2
      exact Bool.noConfusion h2
    · rfl

theorem active_pids_nil_of_all_deleted (s2 : Store)
    (h : ∀ r ∈ s2, r.deleted = true) : get_active_pids s2 = [] := by
  unfold get_active_pids
  have hfil : s2.filter (fun r => !r.deleted) = [] := by
    rw [List.filter_eq_nil_iff]
    intro r hr
    rw [h r hr]
    simp
  rw [hfil]
  rfl

/-- C2.  Running `update_from_icos.main` twice with an unchanged remote
listing and unchanged remote metadata leaves the committed tracking
store byte-identical after the second run — no flag changes, no
`deleted_time` changes, no `updated` churn.  Faithfully to the source
this has two cases: any NONEMPTY listing makes both runs raise
`ValueError` at the loop header (update_from_icos.py line 27) before
any statement, so neither run writes anything (the intended
reconciliation never executes — see C3 and C5); an EMPTY listing makes
the first run mark every active row deleted, after which the second
run finds no active rows, no remote pids and no metadata keys, and
writes nothing. -/
theorem c2_second_run_leaves_store_unchanged (s : Store)
    (listing : List IcosTuple) (fetch : String → Json) (now1 now2 : String)
    (hs : (ids s).Nodup) :
    mainCommitted (mainCommitted s listing fetch now1) listing fetch now2 =
      mainCommitted s listing fetch now1 := by
  rcases hsort : sortIcos listing with _ | ⟨t, ts⟩
  · rw [mainCommitted_of_ok s listing fetch now1
      (mainRun_of_empty s listing fetch now1 hs hsort)]
    have hids2 : ids (s.map (fun r =>
        if (get_active_pids s).contains r.id then delRec now1 r else r)) =
        ids s :=
      ids_map_of_id_eq s _ (fun r => by split <;> rfl)
    rw [mainCommitted_of_ok _ listing fetch now2
      (mainRun_of_empty _ listing fetch now2 (hids2 ▸ hs) hsort)]
    rw [active_pids_nil_of_all_deleted _
      (all_deleted_after_empty_run s now1 hs)]
    have hid : ∀ x ∈ s.map (fun r =>
        if (get_active_pids s).contains r.id then delRec now1 r else r),
        (if (([] : List String).contains x.id) then delRec now2 x else x) =
          x :=
      fun x _ => rfl
    rw [List.map_congr_left hid, List.map_id']
  · rw [mainCommitted_of_error s listing fetch now1
      (mainRun_of_nonempty s listing fetch now1 hsort)]
    rw [mainCommitted_of_error s listing fetch now2
      (mainRun_of_nonempty s listing fetch now2 hsort)]

/-- Witness for C2: an empty listing against a store with one active
row; the first run deletes the row, the second changes nothing. -/
theorem c2_witness :
    mainCommitted
      (mainCommitted
        [(⟨"A", none, none, false, false, false, none⟩ : DataObject)]
        [] (fun _ => Json.objNil) "T1")
      [] (fun _ => Json.objNil) "T2" =
    mainCommitted
      [(⟨"A", none, none, false, false, false, none⟩ : DataObject)]
      [] (fun _ => Json.objNil) "T1" :=
  c2_second_run_leaves_store_unchanged
    [⟨"A", none, none, false, false, false, none⟩] []
    (fun _ => Json.objNil) "T1" "T2" (by decide)

/-- C3 (code-bug evidence).  With the remote listing holding the ids A
and C and the local store holding active rows A and B, `main` raises
`ValueError` at the first-loop header (the 3-name unpack of a 4-tuple,
update_from_icos.py line 27) before any database statement; the
transaction rolls back, so the committed store is exactly the old one:
B is never marked deleted and no C row is ever added — against the
claimed post-state. -/
theorem c3_main_crashes_before_reconciling :
    mainRun
      [⟨"A", some Json.objNil, none, false, false, false, none⟩,
        ⟨"B", none, none, false, false, false, none⟩]
      [⟨"A", "EXPA", "2021-01-01", "2021-01-03"⟩,
        ⟨"C", "EXPC", "2021-02-01", "2021-02-03"⟩]
      (fun _ => Json.objNil) "T" =
      .error "too many values to unpack (expected 3)" ∧
    mainCommitted
      [⟨"A", some Json.objNil, none, false, false, false, none⟩,
        ⟨"B", none, none, false, false, false, none⟩]
      [⟨"A", "EXPA", "2021-01-01", "2021-01-03"⟩,
        ⟨"C", "EXPC", "2021-02-01", "2021-02-03"⟩]
      (fun _ => Json.objNil) "T" =
      [⟨"A", some Json.objNil, none, false, false, false, none⟩,
        ⟨"B", none, none, false, false, false, none⟩] ∧
    is_deleted (mainCommitted
      [⟨"A", some Json.objNil, none, false, false, false, none⟩,
        ⟨"B", none, none, false, false, false, none⟩]
      [⟨"A", "EXPA", "2021-01-01", "2021-01-03"⟩,
        ⟨"C", "EXPC", "2021-02-01", "2021-02-03"⟩]
      (fun _ => Json.objNil) "T") "B" = .ok false ∧
    is_in_db (mainCommitted
      [⟨"A", some Json.objNil, none, false, false, false, none⟩,
        ⟨"B", none, none, false, false, false, none⟩]
      [⟨"A", "EXPA", "2021-01-01", "2021-01-03"⟩,
        ⟨"C", "EXPC", "2021-02-01", "2021-02-03"⟩]
      (fun _ => Json.objNil) "T") "C" = false :=
  ⟨rfl, rfl, rfl, rfl⟩

/-- C5 (code-bug evidence).  With a nonempty remote listing in which a
locally deleted id reappears, `main` raises `ValueError` at the
first-loop header before `undelete` can run, and the transaction rolls
back: the committed store still has the row deleted with its timestamp
set — against the claimed post-state.  The last conjunct shows the
database operation itself is as the claim describes — had it been
reached, `undelete` would clear the flag and timestamp and leave `new`
untouched. -/
theorem c5_main_crashes_before_undelete :
    mainRun [⟨"A", none, none, true, false, true, some "T0"⟩]
      [⟨"A", "EXPA", "2021-01-01", "2021-01-03"⟩]
      (fun _ => Json.objNil) "T1" =
      .error "too many values to unpack (expected 3)" ∧
    mainCommitted [⟨"A", none, none, true, false, true, some "T0"⟩]
      [⟨"A", "EXPA", "2021-01-01", "2021-01-03"⟩]
      (fun _ => Json.objNil) "T1" =
      [⟨"A", none, none, true, false, true, some "T0"⟩] ∧
    is_deleted (mainCommitted
      [⟨"A", none, none, true, false, true, some "T0"⟩]
      [⟨"A", "EXPA", "2021-01-01", "2021-01-03"⟩]
      (fun _ => Json.objNil) "T1") "A" = .ok true ∧
    undelete [⟨"A", none, none, true, false, true, some "T0"⟩] "A" =
      .ok [⟨"A", none, none, true, true, false, none⟩] :=
  ⟨rfl, rfl, rfl, rfl⟩
